import Mathlib

/-!
# Verification of the execution dispatch core

Shallow embedding of the execution store, executor, orchestrator and
reconcilers of the `application-as-service` repository, together with
theorems settling the specification claims.

Conventions of the embedding:
* wall-clock instants are natural numbers (seconds); `datetime.utcnow()`
  becomes an explicit `now : Nat` argument;
* Python `None` becomes `Option`;
* each repository operation is modelled as a pure function of the row it
  locks (the `with_for_update` row) plus its arguments, returning the
  updated row together with its result or error;
* raised exceptions become `Except` error values.
-/

namespace ExecEngine

/-- `ExecutionState` enum from `core/models.py`. -/
inductive ExecutionState where
  | CREATED
  | QUEUED
  | CLAIMED
  | STARTED
  | COMPLETED
  | FAILED
  | CANCELLED
  deriving DecidableEq, Repr

open ExecutionState

/-- The `Execution` domain model from `core/models.py`
(`infrastructure/postgres/models.py` persists the same fields).
Identity fields (`execution_id`, `tenant_id`, ...) are carried as plain
numbers; the opaque `spec` and `deployment_result` documents are carried
as strings, which is all the claims need of them. -/
structure Execution where
  execId : Nat
  state : ExecutionState
  createdAt : Nat
  queuedAt : Option Nat
  claimedAt : Option Nat
  startedAt : Option Nat
  finishedAt : Option Nat
  leaseOwner : Option String
  leaseExpiresAt : Option Nat
  deploymentResult : Option String
  errorMessage : Option String
  retryCount : Nat
  maxRetries : Nat
  priority : Int
  version : Nat
  deriving DecidableEq, Repr

/-- Errors raised by the repositories (`core/errors.py`), plus Python's
builtin `ValueError` and `AssertionError` which the finalize paths use. -/
inductive RepoError where
  | leaseError
  | concurrencyError
  | invalidStateError
  | alreadyExists
  | valueError
  | assertionError
  deriving DecidableEq, Repr

/-- `lease_expires_at and lease_expires_at > now` — the "lease still
live" test used by both repositories (a `None` expiry is not live). -/
def leaseLive (leaseExpiresAt : Option Nat) (now : Nat) : Bool :=
  match leaseExpiresAt with
  | none => false
  | some t => now < t

/-- `PostgresExecutionRepository.try_claim`: with the target row locked,
succeed iff the row exists, is `QUEUED` and its lease is not live; on
success set `CLAIMED`, lease owner/expiry, `claimed_at` and bump the
version.  Any storage exception is caught, rolled back and reported as
`false`; `storageOk = false` models that exception path. -/
def tryClaimPg (row : Option Execution) (workerId : String)
    (leaseSeconds now : Nat) (storageOk : Bool) :
    Option Execution × Bool :=
  if !storageOk then (row, false)
  else
    match row with
    | none => (none, false)
    | some e =>
      if e.state ≠ QUEUED then (some e, false)
      else if leaseLive e.leaseExpiresAt now then (some e, false)
      else
        (some { e with
                  state := CLAIMED
                  leaseOwner := some workerId
                  leaseExpiresAt := some (now + leaseSeconds)
                  claimedAt := some now
                  version := e.version + 1 },
         true)

/-- `InMemoryExecutionRepository.try_claim`: same guards as the Postgres
claim, but on success it only writes `lease_owner`, `lease_expires_at`
and the version — the state stays `QUEUED` and `claimed_at` is untouched. -/
def tryClaimMem (row : Option Execution) (workerId : String)
    (leaseSeconds now : Nat) : Option Execution × Bool :=
  match row with
  | none => (none, false)
  | some e =>
    if e.state ≠ QUEUED then (some e, false)
    else if leaseLive e.leaseExpiresAt now then (some e, false)
    else
      (some { e with
                leaseOwner := some workerId
                leaseExpiresAt := some (now + leaseSeconds)
                version := e.version + 1 },
       true)

/-- `InMemoryExecutionRepository.try_recover`: like the in-memory claim
but guarded on `STARTED` instead of `QUEUED`.  No Postgres counterpart
exists, and no caller invokes it. -/
def tryRecoverMem (row : Option Execution) (workerId : String)
    (leaseSeconds now : Nat) : Option Execution × Bool :=
  match row with
  | none => (none, false)
  | some e =>
    if e.state ≠ STARTED then (some e, false)
    else if leaseLive e.leaseExpiresAt now then (some e, false)
    else
      (some { e with
                leaseOwner := some workerId
                leaseExpiresAt := some (now + leaseSeconds)
                version := e.version + 1 },
       true)

/-- `PostgresExecutionRepository.start`: requires the row to exist, be
`CLAIMED`, owned by `workerId` with a live lease; sets `STARTED`,
`started_at` and bumps the version.  All failures raise
`ExecutionLeaseError`. -/
def startPg (row : Option Execution) (workerId : String) (now : Nat) :
    Except RepoError Execution :=
  match row with
  | none => .error .leaseError
  | some e =>
    if e.state ≠ CLAIMED then .error .leaseError
    else if e.leaseOwner ≠ some workerId then .error .leaseError
    else if !leaseLive e.leaseExpiresAt now then .error .leaseError
    else .ok { e with state := STARTED, startedAt := some now,
                      version := e.version + 1 }

/-- `PostgresExecutionRepository.renew_lease`: requires existence, owner
match and a live lease (no state check in the Postgres code); extends
the expiry and bumps the version. -/
def renewLeasePg (row : Option Execution) (workerId : String)
    (leaseSeconds now : Nat) : Except RepoError Execution :=
  match row with
  | none => .error .leaseError
  | some e =>
    if e.leaseOwner ≠ some workerId then .error .leaseError
    else if !leaseLive e.leaseExpiresAt now then .error .leaseError
    else .ok { e with leaseExpiresAt := some (now + leaseSeconds),
                      version := e.version + 1 }

/-- `PostgresExecutionRepository.finalize`: `final_state` must be
`COMPLETED` or `FAILED` (anything else, `CANCELLED` included, raises
`ValueError`); then requires existence, owner match and a live lease;
sets the final state and `finished_at`, clears both lease fields and
bumps the version. -/
def finalizePg (row : Option Execution) (workerId : String)
    (finalState : ExecutionState) (now : Nat) : Except RepoError Execution :=
  if finalState ≠ COMPLETED ∧ finalState ≠ FAILED then .error .valueError
  else
    match row with
    | none => .error .leaseError
    | some e =>
      if e.leaseOwner ≠ some workerId then .error .leaseError
      else if !leaseLive e.leaseExpiresAt now then .error .leaseError
      else .ok { e with state := finalState, finishedAt := some now,
                        leaseOwner := none, leaseExpiresAt := none,
                        version := e.version + 1 }

/-- `InMemoryExecutionRepository.finalize`: asserts `final_state` is one
of the three terminal states, requires the row to exist and not already
be terminal, owner match and a live lease; sets the final state and
`finished_at`, clears the lease and bumps the version. -/
def finalizeMem (row : Option Execution) (workerId : String)
    (finalState : ExecutionState) (now : Nat) : Except RepoError Execution :=
  if finalState ≠ COMPLETED ∧ finalState ≠ FAILED ∧ finalState ≠ CANCELLED then
    .error .assertionError
  else
    match row with
    | none => .error .concurrencyError
    | some e =>
      if e.state = COMPLETED ∨ e.state = FAILED ∨ e.state = CANCELLED then
        .error .concurrencyError
      else if e.leaseOwner ≠ some workerId then .error .leaseError
      else if !leaseLive e.leaseExpiresAt now then .error .leaseError
      else .ok { e with state := finalState, finishedAt := some now,
                        leaseOwner := none, leaseExpiresAt := none,
                        version := e.version + 1 }

/-- `PostgresExecutionRepository.update`: the row is matched on
`(execution_id, version = execution.version - 1)`; a miss raises
`ExecutionConcurrencyError`.  On a match the listed fields are
overwritten (`claimed_at`, `priority`, `max_retries` and `created_at`
are not in the list and keep their stored values) and the stored version
becomes `execution.version`. -/
def updatePg (row : Option Execution) (execution : Execution) :
    Except RepoError Execution :=
  match row with
  | none => .error .concurrencyError
  | some current =>
    if current.version + 1 ≠ execution.version then .error .concurrencyError
    else .ok { current with
                 state := execution.state
                 leaseOwner := execution.leaseOwner
                 leaseExpiresAt := execution.leaseExpiresAt
                 queuedAt := execution.queuedAt
                 startedAt := execution.startedAt
                 finishedAt := execution.finishedAt
                 deploymentResult := execution.deploymentResult
                 errorMessage := execution.errorMessage
                 retryCount := execution.retryCount
                 version := execution.version }

/-- `InMemoryExecutionRepository.update`: requires the row to exist, then
replaces it with the given record unconditionally — the optimistic
version check is commented out in the source. -/
def updateMem (row : Option Execution) (execution : Execution) :
    Except RepoError Execution :=
  match row with
  | none => .error .concurrencyError
  | some _ => .ok execution

/-- `list_recoverable` row filter (both repositories): state `STARTED`
with `lease_expires_at ≤ now` (a SQL `NULL` expiry never satisfies the
comparison, and the in-memory loop requires the expiry to be set too). -/
def recoverablePred (e : Execution) (now : Nat) : Bool :=
  e.state = STARTED &&
    match e.leaseExpiresAt with
    | none => false
    | some t => t ≤ now

/-- `Execution.queue` from `core/models.py`: `CREATED → QUEUED`, stamping
`queued_at` and bumping the version; anything else raises `ValueError`.
`ExecutionService.queue_execution` persists exactly this transition. -/
def queueExec (e : Execution) (now : Nat) : Except RepoError Execution :=
  if e.state ≠ CREATED then .error .valueError
  else .ok { e with state := QUEUED, queuedAt := some now,
                    version := e.version + 1 }

/-- `PostgresExecutionRepository.create`: inserts the given record;
a duplicate id raises `ExecutionAlreadyExists`. -/
def createPg (row : Option Execution) (execution : Execution) :
    Except RepoError Execution :=
  match row with
  | some _ => .error .alreadyExists
  | none => .ok execution

/-- §3 invariant: `lease_owner` is non-null iff the state is `CLAIMED` or
`STARTED`. -/
def leaseInv (e : Execution) : Prop :=
  e.leaseOwner ≠ none ↔ (e.state = CLAIMED ∨ e.state = STARTED)

instance (e : Execution) : Decidable (leaseInv e) := by
  unfold leaseInv; exact inferInstance

/-! ## Status updater (`status_updater/updater.py`) -/

/-- `DeploymentStatus` enum from `domain/models.py`. -/
inductive DeploymentStatus where
  | PENDING
  | DEPLOYING
  | RUNNING
  | FAILED
  | ROLLED_BACK
  | DELETED
  deriving DecidableEq, Repr

/-- `ApplicationStatus` enum from `domain/models.py`. -/
inductive ApplicationStatus where
  | CREATING
  | RUNNING
  | STOPPED
  | FAILED
  | DELETING
  | DELETED
  deriving DecidableEq, Repr

/-- The `Deployment` fields the status updater and orchestrator touch
(the full domain model carries more identity/config fields that no claim
mentions). -/
structure Deployment where
  status : DeploymentStatus
  startedAt : Option Nat
  completedAt : Option Nat
  errorMessage : Option String
  deriving DecidableEq, Repr

/-- The rollup decision of `StatusUpdater._update_deployment`: with no
executions return early (no change); if any execution is `FAILED` the
deployment becomes `FAILED`; else if all are `COMPLETED` it becomes
`RUNNING`; otherwise no change.  Note the code checks only the state,
not the retry budget. -/
def rollupStatus (executions : List Execution) : Option DeploymentStatus :=
  if executions.isEmpty then none
  else
    let total := executions.length
    let completed := executions.countP fun e => decide (e.state = COMPLETED)
    let failed := executions.countP fun e => decide (e.state = FAILED)
    if 0 < failed then some .FAILED
    else if completed = total then some .RUNNING
    else none

/-- `_apply_deployment_status` error rollup: the non-null child error
messages joined with `"; "`, or `"Deployment failed"` if none. -/
def joinedErrors (executions : List Execution) : String :=
  let errs := executions.filterMap Execution.errorMessage
  if errs.isEmpty then "Deployment failed" else String.intercalate "; " errs

/-- `StatusUpdater._apply_deployment_status`: write the new status;
`RUNNING` also stamps `completed_at`, `FAILED` stamps `completed_at` and
the joined error message. -/
def applyDeploymentStatus (d : Deployment) (newStatus : DeploymentStatus)
    (executions : List Execution) (now : Nat) : Deployment :=
  let d' : Deployment := { d with status := newStatus }
  match newStatus with
  | .RUNNING => { d' with completedAt := some now }
  | .FAILED => { d' with completedAt := some now,
                         errorMessage := some (joinedErrors executions) }
  | _ => d'

/-- `StatusUpdater._update_application_status` mapping: deployment
`RUNNING`/`FAILED` drive the application to the same status; other
statuses leave the application untouched. -/
def appStatusFor : DeploymentStatus → Option ApplicationStatus
  | .RUNNING => some .RUNNING
  | .FAILED => some .FAILED
  | _ => none

/-- One pass of `StatusUpdater._update_deployment` over a deployment and
its child executions: the deployment row written back, and the
application status written (`none` = application untouched). -/
def updateDeployment (d : Deployment) (executions : List Execution)
    (now : Nat) : Deployment × Option ApplicationStatus :=
  match rollupStatus executions with
  | none => (d, none)
  | some ns =>
    if ns ≠ d.status then (applyDeploymentStatus d ns executions now, appStatusFor ns)
    else (d, none)

/-! ## Retry service (`executor/retry_service.py`) -/

/-- Is `pat` a prefix of the second list? -/
def prefMatch : List Char → List Char → Bool
  | [], _ => true
  | _ :: _, [] => false
  | a :: as, b :: bs => a == b && prefMatch as bs

/-- Is `pat` a contiguous sublist of `l`?  (Python's `pat in l`.) -/
def containsSub (pat : List Char) : List Char → Bool
  | [] => prefMatch pat []
  | c :: rest => prefMatch pat (c :: rest) || containsSub pat rest

/-- Modelled from the spec: `Execution.is_transient_error` is called by
`RetryService` and by `test_retry_logic.py` but is defined nowhere under
`src/`.  Per the spec an error is transient when classified as
connection refused, timeout, 5xx or "no suitable node"; we model the
classification as a case-insensitive substring check of the error
message against those four categories (a missing message is not
transient). -/
def is_transient_error (e : Execution) : Bool :=
  match e.errorMessage with
  | none => false
  | some msg =>
    let m := msg.toList.map Char.toLower
    containsSub "connection refused".toList m ||
    containsSub "timeout".toList m ||
    containsSub "5xx".toList m ||
    containsSub "no suitable node".toList m

/-- Modelled from the spec: `Execution.calculate_retry_delay` is called
by `RetryService` but is defined nowhere under `src/`.  The spec's
backoff schedule is 10, 30, 90 seconds indexed by `retry_count`; with
`max_retries = 3` the index never exceeds 2, and we let later indices
repeat the final delay. -/
def calculate_retry_delay (e : Execution) : Nat :=
  [10, 30, 90].getD e.retryCount 90

/-- `Execution.can_retry` from `core/models.py`. -/
def can_retry (e : Execution) : Bool :=
  e.state == FAILED && e.retryCount < e.maxRetries

/-- The filter of `RetryService.find_retryable_executions` applied to one
execution (the candidates come from `list_by_state(FAILED)`): keeps it
when `can_retry`, the error is transient, and — if `finished_at` is set —
the backoff delay has elapsed. -/
def retryablePred (e : Execution) (now : Nat) : Bool :=
  can_retry e && is_transient_error e &&
    (match e.finishedAt with
     | none => true
     | some t => t + calculate_retry_delay e ≤ now)

/-- `RetryService.find_retryable_executions` over the fetched `FAILED`
rows. -/
def find_retryable (failed : List Execution) (now : Nat) : List Execution :=
  failed.filter (retryablePred · now)

/-- `RetryService.retry_execution` (before `repo.update` persists it):
increment `retry_count`, reset to `CREATED`, clear `finished_at`,
`error_message` and both lease fields, bump the version. -/
def retry_execution (e : Execution) : Execution :=
  { e with retryCount := e.retryCount + 1, state := CREATED,
           finishedAt := none, errorMessage := none,
           leaseOwner := none, leaseExpiresAt := none,
           version := e.version + 1 }

/-! ## Memory-string parsing (`orchestrator/deployment_orchestrator.py`) -/

/-- Python `str.strip()`. -/
def stripC (l : List Char) : List Char :=
  ((l.dropWhile Char.isWhitespace).reverse.dropWhile Char.isWhitespace).reverse

/-- Python `str.endswith(suf)`. -/
def sufMatch (l suf : List Char) : Bool :=
  prefMatch suf.reverse l.reverse

/-- Digit-list accumulator for numeral parsing. -/
def digitsVal : List Char → Nat → Option Nat
  | [], acc => some acc
  | c :: cs, acc =>
    if c.isDigit then digitsVal cs (10 * acc + (c.toNat - 48)) else none

/-- Python `int(str)`: a non-empty all-digit string (signs and whitespace
variants do not occur in memory strings and are not modelled). -/
def parseNatC (l : List Char) : Option Nat :=
  if l.isEmpty then none else digitsVal l 0

/-- The value of an all-digit string. -/
def digitsToNat (l : List Char) : Nat :=
  l.foldl (fun a c => 10 * a + (c.toNat - 48)) 0

/-- Split at the first `'.'`. -/
def splitDot : List Char → List Char × Option (List Char)
  | [] => ([], none)
  | c :: cs =>
    if c = '.' then ([], some cs)
    else
      let (ip, fp) := splitDot cs
      (c :: ip, fp)

/-- Decimal-numeral core of Python `float(str)` as `_parse_memory` uses
it, returned as an exact (numerator, power-of-ten denominator) pair:
optional integer part, optional single `'.'`, optional fraction part, at
least one digit overall.  Signs, exponents and the other exotic forms
`float` accepts do not occur in memory strings and are not modelled. -/
def parseFloatC (l : List Char) : Option (Nat × Nat) :=
  match splitDot l with
  | (ip, none) => (parseNatC ip).map fun n => (n, 1)
  | (ip, some fp) =>
    if fp.contains '.' then none
    else if ip.isEmpty && fp.isEmpty then none
    else if ip.all Char.isDigit && fp.all Char.isDigit then
      some (digitsToNat ip * 10 ^ fp.length + digitsToNat fp, 10 ^ fp.length)
    else none

/-- `DeploymentOrchestrator._parse_memory`: strip, test the `Gi`, `Mi`,
`G`, `M` suffixes in that order (prefix read with `float`, result
truncated to int after the MB conversion — exact rational division here,
which agrees with `int()` truncation for the non-negative values
modelled), else plain `int(str)` megabytes.  `none` models the
`ValueError` Python raises on a malformed numeral. -/
def parse_memory (s : List Char) : Option Nat :=
  let t := stripC s
  if sufMatch t ['G', 'i'] then
    (parseFloatC (t.take (t.length - 2))).map fun p => p.1 * 1024 / p.2
  else if sufMatch t ['M', 'i'] then
    (parseFloatC (t.take (t.length - 2))).map fun p => p.1 / p.2
  else if sufMatch t ['G'] then
    (parseFloatC (t.take (t.length - 1))).map fun p => p.1 * 1024 / p.2
  else if sufMatch t ['M'] then
    (parseFloatC (t.take (t.length - 1))).map fun p => p.1 / p.2
  else parseNatC t

/-- The ten digit characters. -/
def digitChar (d : Fin 10) : Char :=
  Char.ofNat (48 + d.val)

/-- The numeric value denoted by a digit sequence. -/
def natOfDigits (ds : List (Fin 10)) : Nat :=
  ds.foldl (fun a d => 10 * a + d.val) 0

/-! ## Node selection and orchestration
(`node_manager/service.py`, `orchestrator/deployment_orchestrator.py`) -/

/-- The `InfrastructureNode` capacity fields `select_node` reads (CPU is
a Python float, embedded as an exact rational). -/
structure NodeRec where
  nodeId : Nat
  nodeName : String
  activeContainers : Nat
  maxContainers : Nat
  availableCpu : ℚ
  availableMemory : Nat
  availableStorage : Nat
  deriving DecidableEq, Repr

/-- `InfrastructureNode.can_accommodate`. -/
def can_accommodate (n : NodeRec) (requiredCpu : ℚ)
    (requiredMemory requiredStorage : Nat) : Bool :=
  requiredCpu ≤ n.availableCpu && requiredMemory ≤ n.availableMemory &&
    requiredStorage ≤ n.availableStorage &&
    n.activeContainers < n.maxContainers

/-- Python `min(..., key=active_containers)` — first minimum wins. -/
def leastLoaded (best : NodeRec) : List NodeRec → NodeRec
  | [] => best
  | n :: ns =>
    if n.activeContainers < best.activeContainers then leastLoaded n ns
    else leastLoaded best ns

/-- `NodeManagerService.select_node` over the repository's available
nodes: filter by capacity, `none` when nothing fits, else the least
loaded candidate. -/
def select_node (availableNodes : List NodeRec) (requiredCpu : ℚ)
    (requiredMemory requiredStorage : Nat) : Option NodeRec :=
  match availableNodes.filter
      (fun n => can_accommodate n requiredCpu requiredMemory requiredStorage) with
  | [] => none
  | n :: ns => some (leastLoaded n ns)

/-- Step kinds dispatched by `DeploymentOrchestrator._execute_step`. -/
inductive StepType where
  | volume
  | database
  | container
  deriving DecidableEq, Repr

/-- The step fields the orchestrator reads: `order` for sorting, the type
for dispatch, and the container resource requests (`cpu` is
`float(resources.get("cpu", "0.5"))`, carried as a rational; `memoryStr`
is the raw `resources.get("memory", "512Mi")` string). -/
structure StepDef where
  order : Nat
  stepType : StepType
  name : String
  cpu : ℚ
  memoryStr : List Char
  deriving DecidableEq, Repr

/-- Insertion into an order-sorted step list. -/
def insertByOrder (s : StepDef) : List StepDef → List StepDef
  | [] => [s]
  | t :: ts =>
    if s.order ≤ t.order then s :: t :: ts else t :: insertByOrder s ts

/-- `sorted(template.deployment_steps, key=order)`. -/
def sortSteps (steps : List StepDef) : List StepDef :=
  steps.foldr insertByOrder []

/-- One step of `DeploymentOrchestrator._execute_step`: volume and
database steps are inline stubs creating no execution; a container step
parses its memory request, selects a node (`required_storage = 1`,
runtime `docker`), raises on no node, and otherwise registers and queues
one execution (`.ok true`).  The exact text of the `ValueError` a
malformed memory string raises is not modelled. -/
def runStep (nodes : List NodeRec) (s : StepDef) : Except String Bool :=
  match s.stepType with
  | .volume => .ok false
  | .database => .ok false
  | .container =>
    match parse_memory s.memoryStr with
    | none => .error "invalid memory string"
    | some mem =>
      match select_node nodes s.cpu mem 1 with
      | none => .error "No suitable infrastructure node available"
      | some _ => .ok true

/-- Run the sorted steps in sequence, stopping at the first orchestration
exception: the number of executions created so far, and the exception
message if one was raised. -/
def runSteps (nodes : List NodeRec) : List StepDef → Nat × Option String
  | [] => (0, none)
  | s :: rest =>
    match runStep nodes s with
    | .error m => (0, some m)
    | .ok created =>
      let (k, err) := runSteps nodes rest
      ((if created then 1 else 0) + k, err)

/-- `DeploymentOrchestrator.start_deployment`: mark the deployment
`DEPLOYING` with `started_at = now`, run the steps sorted by `order`;
on an orchestration exception mark it `FAILED` with
`error_message = "Orchestration error: " + message` and
`completed_at = now` (the exception is then re-raised).  Returns the
final deployment record and the number of execution rows created. -/
def start_deployment (nodes : List NodeRec) (d : Deployment)
    (steps : List StepDef) (now : Nat) : Deployment × Nat :=
  let d1 : Deployment := { d with status := .DEPLOYING, startedAt := some now }
  match runSteps nodes (sortSteps steps) with
  | (k, none) => (d1, k)
  | (k, some m) =>
    ({ d1 with status := .FAILED,
               errorMessage := some ("Orchestration error: " ++ m),
               completedAt := some now }, k)

/-! ## Health checker (`health_checker/checker.py`) -/

/-- `HealthStatus` enum from `domain/models.py`. -/
inductive HealthStatus where
  | UNKNOWN
  | HEALTHY
  | UNHEALTHY
  | STARTING
  deriving DecidableEq, Repr

/-- `HealthChecker._update_health_status`: the
(`health_status`, `consecutive_health_failures`, `last_health_check_at`)
triple written for one probe result.  A success writes `HEALTHY` with
the counter reset; a failure increments the counter and writes
`UNHEALTHY` once it reaches the threshold, `HEALTHY` (still tracking)
below it. -/
def update_health_status (failureThreshold : Nat) (isHealthy : Bool)
    (currentFailures : Nat) (now : Nat) : HealthStatus × Nat × Nat :=
  if isHealthy then (.HEALTHY, 0, now)
  else
    let newFailures := currentFailures + 1
    if failureThreshold ≤ newFailures then (.UNHEALTHY, newFailures, now)
    else (.HEALTHY, newFailures, now)

/-! ## Sample rows used by witnesses and counterexamples -/

/-- A freshly queued execution row (no lease). -/
def exQueued : Execution :=
  { execId := 1, state := QUEUED, createdAt := 0, queuedAt := some 1,
    claimedAt := none, startedAt := none, finishedAt := none,
    leaseOwner := none, leaseExpiresAt := none, deploymentResult := none,
    errorMessage := none, retryCount := 0, maxRetries := 3, priority := 0,
    version := 1 }

/-- A `STARTED` row whose worker crashed: its lease expired at 50. -/
def exStartedExpired : Execution :=
  { execId := 2, state := STARTED, createdAt := 0, queuedAt := some 1,
    claimedAt := some 5, startedAt := some 10, finishedAt := none,
    leaseOwner := some "worker-1", leaseExpiresAt := some 50,
    deploymentResult := none, errorMessage := none, retryCount := 0,
    maxRetries := 3, priority := 0, version := 3 }

/-- A `STARTED` row whose lease (owned by worker-1) is still live at 100. -/
def exStartedLive : Execution :=
  { exStartedExpired with leaseExpiresAt := some 200 }

/-- The row `tryClaimPg` produces from `exQueued` for worker-1 at 100. -/
def exClaimed : Execution :=
  { exQueued with state := CLAIMED, leaseOwner := some "worker-1",
                  leaseExpiresAt := some 130, claimedAt := some 100,
                  version := 2 }

/-- A `FAILED` row with a transient error and its retry budget intact. -/
def exFailedRetryable : Execution :=
  { execId := 3, state := FAILED, createdAt := 0, queuedAt := some 1,
    claimedAt := some 5, startedAt := some 10, finishedAt := some 60,
    leaseOwner := none, leaseExpiresAt := none, deploymentResult := none,
    errorMessage := some "Connection refused by runtime agent",
    retryCount := 0, maxRetries := 3, priority := 0, version := 6 }

/-- A deployment mid-flight. -/
def depDeploying : Deployment :=
  { status := .DEPLOYING, startedAt := some 40, completedAt := none,
    errorMessage := none }

/-- A deployment not yet started. -/
def depPending : Deployment :=
  { status := .PENDING, startedAt := none, completedAt := none,
    errorMessage := none }

/-- A single container step requesting 0.5 CPU / 512 MiB. -/
def stepWeb : StepDef :=
  { order := 1, stepType := .container, name := "web", cpu := 1/2,
    memoryStr := "512Mi".toList }

/-! ## C1 — atomic claim -/

/-- C1 (amended): `PostgresExecutionRepository.try_claim` returns true iff
no storage error occurred, the row exists, its state is `QUEUED` and its
lease is null or ≤ now; on success it sets `state = CLAIMED`,
`lease_owner`, `lease_expires_at = now + lease_seconds`,
`claimed_at = now` and increments the version; in every other case,
storage errors included, it returns false and leaves the row unchanged.
The in-memory `try_claim`, by contrast, only writes the lease fields and
the version on success: the state stays `QUEUED` and `claimed_at` is not
set. -/
theorem C1_try_claim_semantics :
    ∀ (row : Option Execution) (w : String) (ls now : Nat) (ok : Bool),
    ((tryClaimPg row w ls now ok).2 = true ↔
      ok = true ∧ ∃ e, row = some e ∧ e.state = QUEUED ∧
        leaseLive e.leaseExpiresAt now = false) ∧
    (∀ e, row = some e → (tryClaimPg row w ls now ok).2 = true →
      (tryClaimPg row w ls now ok).1 =
        some { e with state := CLAIMED, leaseOwner := some w,
                      leaseExpiresAt := some (now + ls),
                      claimedAt := some now, version := e.version + 1 }) ∧
    ((tryClaimPg row w ls now ok).2 = false →
      (tryClaimPg row w ls now ok).1 = row) ∧
    (∀ e, row = some e → (tryClaimMem row w ls now).2 = true →
      (tryClaimMem row w ls now).1 =
        some { e with leaseOwner := some w,
                      leaseExpiresAt := some (now + ls),
                      version := e.version + 1 }) := by
  intro row w ls now ok
  refine ⟨?_, ?_, ?_, ?_⟩
  · constructor
    · intro h
      cases ok with
      | false => simp [tryClaimPg] at h
      | true =>
        cases row with
        | none => simp [tryClaimPg] at h
        | some e =>
          refine ⟨rfl, e, rfl, ?_⟩
          by_cases hs : e.state = QUEUED
          · by_cases hl : leaseLive e.leaseExpiresAt now
            · simp [tryClaimPg, hs, hl] at h
            · simpa [hs] using Bool.of_not_eq_true hl
          · simp [tryClaimPg, hs] at h
    · rintro ⟨hok, e, hrow, hs, hl⟩
      subst hok hrow
      simp [tryClaimPg, hs, hl]
  · intro e hrow h
    subst hrow
    cases ok with
    | false => simp [tryClaimPg] at h
    | true =>
      by_cases hs : e.state = QUEUED
      · by_cases hl : leaseLive e.leaseExpiresAt now
        · simp [tryClaimPg, hs, hl] at h
        · simp [tryClaimPg, hs, hl]
      · simp [tryClaimPg, hs] at h
  · intro h
    cases ok with
    | false => simp [tryClaimPg]
    | true =>
      cases row with
      | none => simp [tryClaimPg]
      | some e =>
        by_cases hs : e.state = QUEUED
        · by_cases hl : leaseLive e.leaseExpiresAt now
          · simp [tryClaimPg, hs, hl]
          · simp [tryClaimPg, hs, hl] at h
        · simp [tryClaimPg, hs]
  · intro e hrow h
    subst hrow
    by_cases hs : e.state = QUEUED
    · by_cases hl : leaseLive e.leaseExpiresAt now
      · simp [tryClaimMem, hs, hl] at h
      · simp [tryClaimMem, hs, hl]
    · simp [tryClaimMem, hs] at h

/-- C1 counterexample: the in-memory `try_claim` succeeds on a queued row
yet leaves the state `QUEUED` and `claimed_at` unset, contradicting the
claim that a successful claim sets `state = CLAIMED` and
`claimed_at = now`. -/
theorem C1_mem_claim_leaves_state_queued :
    (tryClaimMem (some exQueued) "worker-2" 30 100).2 = true ∧
    (tryClaimMem (some exQueued) "worker-2" 30 100).1.map Execution.state =
      some QUEUED ∧
    (tryClaimMem (some exQueued) "worker-2" 30 100).1.map Execution.claimedAt =
      some none := by decide

/-- Witness for C1: the Postgres claim applied to the sample queued row. -/
theorem C1_try_claim_semantics_witness :
    (tryClaimPg (some exQueued) "worker-1" 30 100 true).1 =
      some { exQueued with state := CLAIMED, leaseOwner := some "worker-1",
                           leaseExpiresAt := some (100 + 30),
                           claimedAt := some 100,
                           version := exQueued.version + 1 } :=
  (C1_try_claim_semantics (some exQueued) "worker-1" 30 100 true).2.1
    exQueued rfl (by decide)

/-! ## C2 — crash recovery through the claim path -/

/-- C2: the executor's recovery path (`Executor._claim_and_execute`) runs
`list_recoverable` and then `service.claim_execution`, which calls
`try_claim`.  But `PostgresExecutionRepository.try_claim` requires
`state = QUEUED`, so on every recoverable row — state `STARTED`, lease
expired — the claim returns false and leaves the row unchanged: a
crashed `STARTED` execution is never transitioned to a new owner. -/
theorem C2_recovery_claim_always_fails :
    ∀ (e : Execution) (w : String) (ls now : Nat) (ok : Bool),
    recoverablePred e now = true →
    tryClaimPg (some e) w ls now ok = (some e, false) := by
  intro e w ls now ok h
  have hs : e.state = STARTED := by
    have := (Bool.and_eq_true _ _).mp h
    exact of_decide_eq_true this.1
  cases ok <;> simp [tryClaimPg, hs]

/-- Witness for C2: a concrete crashed `STARTED` row with expired lease is
recoverable, yet a fresh worker's `try_claim` on it fails. -/
theorem C2_recovery_claim_always_fails_witness :
    tryClaimPg (some exStartedExpired) "worker-2" 30 100 true =
      (some exStartedExpired, false) :=
  C2_recovery_claim_always_fails exStartedExpired "worker-2" 30 100 true
    (by decide)

/-! ## C3 — status updater rollup -/

/-- C3 (amended): one pass of the status updater over a `DEPLOYING`
deployment with at least one child execution sets it to `FAILED` (with
`completed_at = now`, `error_message` the joined child errors, and the
application driven to `FAILED`) whenever **some** child execution is in
state `FAILED` — the code does not check whether that child's retries
are exhausted; sets it to `RUNNING` (with `completed_at = now`,
application `RUNNING`) when every child is `COMPLETED`; and otherwise
leaves deployment and application unchanged. -/
theorem C3_rollup_semantics :
    ∀ (d : Deployment) (execs : List Execution) (now : Nat),
    d.status = .DEPLOYING → execs ≠ [] →
    ((∃ e ∈ execs, e.state = FAILED) →
      updateDeployment d execs now =
        ({ d with status := .FAILED, completedAt := some now,
                  errorMessage := some (joinedErrors execs) },
         some .FAILED)) ∧
    ((∀ e ∈ execs, e.state = COMPLETED) →
      updateDeployment d execs now =
        ({ d with status := .RUNNING, completedAt := some now },
         some .RUNNING)) ∧
    ((¬ ∃ e ∈ execs, e.state = FAILED) →
      (¬ ∀ e ∈ execs, e.state = COMPLETED) →
      updateDeployment d execs now = (d, none)) := by
  intro d execs now hd hne
  have hemp : execs.isEmpty = false := by
    cases execs with
    | nil => exact absurd rfl hne
    | cons a l => rfl
  refine ⟨?_, ?_, ?_⟩
  · intro hfail
    have hpos : 0 < execs.countP fun e => decide (e.state = FAILED) := by
      rw [List.countP_pos_iff]
      obtain ⟨e, he, hs⟩ := hfail
      exact ⟨e, he, by simpa using hs⟩
    have hroll : rollupStatus execs = some .FAILED := by
      simp [rollupStatus, hemp, hpos]
    simp [updateDeployment, hroll, hd, applyDeploymentStatus, appStatusFor]
  · intro hall
    have hzero : (execs.countP fun e => decide (e.state = FAILED)) = 0 := by
      rw [List.countP_eq_zero]
      intro e he
      simp [hall e he]
    have hlen : (execs.countP fun e => decide (e.state = COMPLETED)) =
        execs.length := by
      rw [List.countP_eq_length]
      intro e he
      simp [hall e he]
    have hroll : rollupStatus execs = some .RUNNING := by
      simp [rollupStatus, hemp, hzero, hlen]
    simp [updateDeployment, hroll, hd, applyDeploymentStatus, appStatusFor]
  · intro hnofail hnotall
    have hzero : (execs.countP fun e => decide (e.state = FAILED)) = 0 := by
      rw [List.countP_eq_zero]
      intro e he hdec
      exact hnofail ⟨e, he, by simpa using hdec⟩
    have hnlen : (execs.countP fun e => decide (e.state = COMPLETED)) ≠
        execs.length := by
      rw [Ne, List.countP_eq_length]
      intro h
      exact hnotall fun e he => by simpa using h e he
    have hroll : rollupStatus execs = none := by
      simp [rollupStatus, hemp, hzero, hnlen]
    simp [updateDeployment, hroll]

/-- C3 counterexample: a `DEPLOYING` deployment whose only child is
`FAILED` with `retry_count = 0 < max_retries = 3` (retries *not*
exhausted) is nevertheless rolled up to `FAILED` by the updater,
contradicting the claim that this happens only when the child's retries
are exhausted. -/
theorem C3_fails_without_retry_exhaustion :
    (updateDeployment depDeploying [exFailedRetryable] 100).1.status =
      .FAILED ∧
    exFailedRetryable.retryCount < exFailedRetryable.maxRetries := by decide

/-- Witness for C3: the amended rollup applied to the same concrete
deployment. -/
theorem C3_rollup_semantics_witness :
    updateDeployment depDeploying [exFailedRetryable] 100 =
      ({ depDeploying with status := .FAILED, completedAt := some 100,
                           errorMessage := some (joinedErrors [exFailedRetryable]) },
       some .FAILED) :=
  (C3_rollup_semantics depDeploying [exFailedRetryable] 100 rfl (by decide)).1
    ⟨exFailedRetryable, by decide⟩

/-! ## C5 — lease-owner / state invariant -/

/-- C5 (amended): the invariant `lease_owner ≠ null ⇔ state ∈ {CLAIMED,
STARTED}` is preserved by every Postgres store operation — create and
queue of an invariant-satisfying record, claim, start, renew, finalize
(which also nulls both lease fields), optimistic update of an
invariant-satisfying record, and the retry reset.  (The in-memory
`try_claim` violates the invariant; see the counterexample.) -/
theorem C5_lease_invariant_preserved :
    ∀ (e e' r : Execution) (w : String) (fs : ExecutionState)
      (ls now now2 : Nat),
    leaseInv e →
    (createPg none e = .ok r → leaseInv r) ∧
    (queueExec e now2 = .ok r → leaseInv r) ∧
    ((tryClaimPg (some e) w ls now true).1 = some r → leaseInv r) ∧
    (startPg (some e) w now = .ok r → leaseInv r) ∧
    (renewLeasePg (some e) w ls now = .ok r → leaseInv r) ∧
    (finalizePg (some e) w fs now = .ok r →
      leaseInv r ∧ r.leaseOwner = none ∧ r.leaseExpiresAt = none) ∧
    (leaseInv e' → updatePg (some e) e' = .ok r → leaseInv r) ∧
    leaseInv (retry_execution e) := by
  intro e e' r w fs ls now now2 hinv
  refine ⟨?_, ?_, ?_, ?_, ?_, ?_, ?_, ?_⟩
  · intro h
    simp [createPg] at h
    simpa [← h] using hinv
  · intro h
    by_cases hs : e.state = CREATED
    · simp [queueExec, hs] at h
      have howner : e.leaseOwner = none := by
        by_contra hne
        rcases hinv.mp hne with h1 | h1 <;> simp [hs] at h1
      simp [leaseInv, ← h, howner]
    · simp [queueExec, hs] at h
  · intro h
    by_cases hs : e.state = QUEUED
    · by_cases hl : leaseLive e.leaseExpiresAt now
      · simp [tryClaimPg, hs, hl] at h
        simpa [← h] using hinv
      · simp [tryClaimPg, hs, hl] at h
        simp [leaseInv, ← h]
    · simp [tryClaimPg, hs] at h
      simpa [← h] using hinv
  · intro h
    by_cases hs : e.state = CLAIMED
    · by_cases ho : e.leaseOwner = some w
      · by_cases hl : leaseLive e.leaseExpiresAt now
        · simp [startPg, hs, ho, hl] at h
          simp [leaseInv, ← h, ho]
        · simp [startPg, hs, ho, hl] at h
      · simp [startPg, hs, ho] at h
    · simp [startPg, hs] at h
  · intro h
    by_cases ho : e.leaseOwner = some w
    · by_cases hl : leaseLive e.leaseExpiresAt now
      · simp [renewLeasePg, ho, hl] at h
        simpa [leaseInv, ← h, ho] using hinv
      · simp [renewLeasePg, ho, hl] at h
    · simp [renewLeasePg, ho] at h
  · intro h
    by_cases hfs : fs ≠ COMPLETED ∧ fs ≠ FAILED
    · simp [finalizePg, hfs] at h
    · by_cases ho : e.leaseOwner = some w
      · by_cases hl : leaseLive e.leaseExpiresAt now
        · simp [finalizePg, hfs, ho, hl] at h
          have hterm : fs = COMPLETED ∨ fs = FAILED := by tauto
          refine ⟨?_, by simp [← h], by simp [← h]⟩
          simp only [leaseInv, ← h]
          constructor
          · intro hc; simp at hc
          · intro hc
            rcases hterm with h1 | h1 <;> rcases hc with h2 | h2 <;>
              simp [h1] at h2
        · simp [finalizePg, hfs, ho, hl] at h
      · simp [finalizePg, hfs, ho] at h
  · intro hinv' h
    by_cases hv : e.version + 1 ≠ e'.version
    · simp [updatePg, hv] at h
    · simp only [updatePg, if_neg hv, Except.ok.injEq] at h
      simpa [leaseInv, ← h] using hinv'
  · simp [leaseInv, retry_execution]

/-- C5 counterexample: the in-memory `try_claim` succeeds on a queued row
and hands back a row with `lease_owner` set while the state is still
`QUEUED` — directly violating the invariant. -/
theorem C5_mem_claim_breaks_invariant :
    tryClaimMem (some exQueued) "worker-2" 30 100 =
      (some { exQueued with leaseOwner := some "worker-2",
                            leaseExpiresAt := some 130, version := 2 },
       true) ∧
    ¬ leaseInv { exQueued with leaseOwner := some "worker-2",
                               leaseExpiresAt := some 130, version := 2 } := by
  decide

/-- Witness for C5: the row the Postgres claim produces from the sample
queued row satisfies the invariant. -/
theorem C5_lease_invariant_preserved_witness : leaseInv exClaimed :=
  (C5_lease_invariant_preserved exQueued exQueued exClaimed "worker-1"
    COMPLETED 30 100 0 (by decide)).2.2.1 (by decide)

/-! ## C6 — monotonic versions and optimistic update -/

/-- C6 (amended): `PostgresExecutionRepository.update` persists the given
record exactly when the stored row's version is `execution.version − 1`
and raises `ConcurrencyError` for every other stored version; every
successful Postgres mutation (update, claim, start, renew, finalize,
queue) leaves the stored version exactly one above the previous one.
(The in-memory `update` skips the version check; see the
counterexample.) -/
theorem C6_version_semantics :
    ∀ (e e' : Execution) (w : String) (fs : ExecutionState) (ls now : Nat),
    (updatePg (some e) e' = .error .concurrencyError ↔
      e.version + 1 ≠ e'.version) ∧
    (∀ r, updatePg (some e) e' = .ok r → r.version = e.version + 1) ∧
    ((tryClaimPg (some e) w ls now true).2 = true →
      ∀ r, (tryClaimPg (some e) w ls now true).1 = some r →
        r.version = e.version + 1) ∧
    (∀ r, startPg (some e) w now = .ok r → r.version = e.version + 1) ∧
    (∀ r, renewLeasePg (some e) w ls now = .ok r →
      r.version = e.version + 1) ∧
    (∀ r, finalizePg (some e) w fs now = .ok r →
      r.version = e.version + 1) ∧
    (∀ r, queueExec e now = .ok r → r.version = e.version + 1) := by
  intro e e' w fs ls now
  refine ⟨?_, ?_, ?_, ?_, ?_, ?_, ?_⟩
  · by_cases hv : e.version + 1 ≠ e'.version
    · constructor
      · intro _; exact hv
      · intro _; simp [updatePg, hv]
    · constructor
      · intro hcontra
        exfalso
        simp [updatePg, hv] at hcontra
      · intro hne
        exact absurd hne hv
  · intro r h
    by_cases hv : e.version + 1 ≠ e'.version
    · simp [updatePg, hv] at h
    · simp only [updatePg, if_neg hv, Except.ok.injEq] at h
      have hv' : e.version + 1 = e'.version := not_not.mp hv
      simp [← h, ← hv']
  · intro ht r h
    by_cases hs : e.state = QUEUED
    · by_cases hl : leaseLive e.leaseExpiresAt now
      · simp [tryClaimPg, hs, hl] at ht
      · simp [tryClaimPg, hs, hl] at h
        simp [← h]
    · simp [tryClaimPg, hs] at ht
  · intro r h
    by_cases hs : e.state = CLAIMED
    · by_cases ho : e.leaseOwner = some w
      · by_cases hl : leaseLive e.leaseExpiresAt now
        · simp [startPg, hs, ho, hl] at h
          simp [← h]
        · simp [startPg, hs, ho, hl] at h
      · simp [startPg, hs, ho] at h
    · simp [startPg, hs] at h
  · intro r h
    by_cases ho : e.leaseOwner = some w
    · by_cases hl : leaseLive e.leaseExpiresAt now
      · simp [renewLeasePg, ho, hl] at h
        simp [← h]
      · simp [renewLeasePg, ho, hl] at h
    · simp [renewLeasePg, ho] at h
  · intro r h
    by_cases hfs : fs ≠ COMPLETED ∧ fs ≠ FAILED
    · simp [finalizePg, hfs] at h
    · by_cases ho : e.leaseOwner = some w
      · by_cases hl : leaseLive e.leaseExpiresAt now
        · simp [finalizePg, hfs, ho, hl] at h
          simp [← h]
        · simp [finalizePg, hfs, ho, hl] at h
      · simp [finalizePg, hfs, ho] at h
  · intro r h
    by_cases hs : e.state = CREATED
    · simp [queueExec, hs] at h
      simp [← h]
    · simp [queueExec, hs] at h

/-- C6 counterexample: the in-memory `update` accepts a record whose
version (1) is not one above the stored version (5) — no
`ConcurrencyError` — and the persisted version drops from 5 to 1. -/
theorem C6_mem_update_skips_version_check :
    updateMem (some { exQueued with version := 5 })
        { exQueued with version := 1 } =
      .ok { exQueued with version := 1 } ∧
    ({ exQueued with version := 5 } : Execution).version ≠
      ({ exQueued with version := 1 } : Execution).version - 1 :=
  ⟨rfl, by decide⟩

/-- Witness for C6: the optimistic-update equivalence applied to the
sample queued row against a record one version ahead. -/
theorem C6_version_semantics_witness :
    updatePg (some exQueued) { exQueued with version := 5 } =
      .error .concurrencyError :=
  (C6_version_semantics exQueued { exQueued with version := 5 } "worker-1"
    COMPLETED 30 100).1.mpr (by decide)

/-! ## C7 — finalize's accepted final states -/

/-- C7 (amended): the Postgres `finalize` accepts exactly the final
states `COMPLETED` and `FAILED` — `CANCELLED` (like every other state)
is rejected with `ValueError` before any guard runs; the in-memory
`finalize` accepts all three terminal states.  For an accepted state,
given ownership by `worker` and a live lease (and, in memory, a
non-terminal current state), finalize sets the state and `finished_at`,
clears both lease fields and bumps the version. -/
theorem C7_finalize_semantics :
    ∀ (e : Execution) (w : String) (fs : ExecutionState) (now : Nat),
    (finalizePg (some e) w CANCELLED now = .error .valueError) ∧
    ((fs = COMPLETED ∨ fs = FAILED) → e.leaseOwner = some w →
      leaseLive e.leaseExpiresAt now = true →
      finalizePg (some e) w fs now =
        .ok { e with state := fs, finishedAt := some now,
                     leaseOwner := none, leaseExpiresAt := none,
                     version := e.version + 1 }) ∧
    ((fs = COMPLETED ∨ fs = FAILED ∨ fs = CANCELLED) →
      (e.state ≠ COMPLETED ∧ e.state ≠ FAILED ∧ e.state ≠ CANCELLED) →
      e.leaseOwner = some w → leaseLive e.leaseExpiresAt now = true →
      finalizeMem (some e) w fs now =
        .ok { e with state := fs, finishedAt := some now,
                     leaseOwner := none, leaseExpiresAt := none,
                     version := e.version + 1 }) := by
  intro e w fs now
  refine ⟨?_, ?_, ?_⟩
  · simp [finalizePg]
  · intro hfs ho hl
    have hns : ¬(fs ≠ COMPLETED ∧ fs ≠ FAILED) := by tauto
    simp [finalizePg, hns, ho, hl]
  · intro hfs hterm ho hl
    have hns : ¬(fs ≠ COMPLETED ∧ fs ≠ FAILED ∧ fs ≠ CANCELLED) := by tauto
    have hcur : ¬(e.state = COMPLETED ∨ e.state = FAILED ∨
        e.state = CANCELLED) := by tauto
    simp [finalizeMem, hns, hcur, ho, hl]

/-- C7 counterexample: finalizing a `STARTED` row with a live lease owned
by the caller as `CANCELLED` raises `ValueError` in the Postgres
repository, so `finalize` does not accept `CANCELLED` as the claim
states. -/
theorem C7_pg_rejects_cancelled :
    finalizePg (some exStartedLive) "worker-1" CANCELLED 100 =
      .error .valueError ∧
    exStartedLive.leaseOwner = some "worker-1" ∧
    leaseLive exStartedLive.leaseExpiresAt 100 = true :=
  ⟨rfl, rfl, rfl⟩

/-- Witness for C7: completing the live started row. -/
theorem C7_finalize_semantics_witness :
    finalizePg (some exStartedLive) "worker-1" COMPLETED 100 =
      .ok { exStartedLive with state := COMPLETED, finishedAt := some 100,
                               leaseOwner := none, leaseExpiresAt := none,
                               version := exStartedLive.version + 1 } :=
  (C7_finalize_semantics exStartedLive "worker-1" COMPLETED 100).2.1
    (Or.inl rfl) (by decide) (by decide)

/-! ## C4 — retry scheduler -/

/-- C4: a `FAILED` execution (with `finished_at` set, as the failure
transition guarantees) passes the retry filter iff `retry_count <
max_retries`, its error is classified transient, and
`now ≥ finished_at + backoff(retry_count)` with backoff 10, 30, 90
seconds; the reset sets `state = CREATED`, clears both lease fields,
`finished_at` and `error_message`, increments `retry_count` and bumps
the version; the optimistic update accepts the reset record; and the
retry worker's subsequent `queue_execution` re-enqueues it through the
normal `CREATED → QUEUED` transition. -/
theorem C4_retry_semantics :
    ∀ (e : Execution) (now t now2 : Nat),
    e.finishedAt = some t →
    ((retryablePred e now = true) ↔
      (e.state = FAILED ∧ e.retryCount < e.maxRetries ∧
       is_transient_error e = true ∧
       t + [10, 30, 90].getD e.retryCount 90 ≤ now)) ∧
    ((retry_execution e).state = CREATED ∧
     (retry_execution e).leaseOwner = none ∧
     (retry_execution e).leaseExpiresAt = none ∧
     (retry_execution e).finishedAt = none ∧
     (retry_execution e).errorMessage = none ∧
     (retry_execution e).retryCount = e.retryCount + 1 ∧
     (retry_execution e).version = e.version + 1) ∧
    (updatePg (some e) (retry_execution e) = .ok (retry_execution e)) ∧
    (queueExec (retry_execution e) now2 =
      .ok { (retry_execution e) with state := QUEUED,
                                     queuedAt := some now2,
                                     version := e.version + 2 }) := by
  intro e now t now2 hf
  refine ⟨?_, ?_, ?_, ?_⟩
  · simp only [retryablePred, can_retry, calculate_retry_delay, hf,
      Bool.and_eq_true, beq_iff_eq, decide_eq_true_eq]
    constructor
    · rintro ⟨⟨⟨h1, h2⟩, h3⟩, h4⟩
      exact ⟨h1, h2, h3, h4⟩
    · rintro ⟨h1, h2, h3, h4⟩
      exact ⟨⟨⟨h1, h2⟩, h3⟩, h4⟩
  · simp [retry_execution]
  · simp [updatePg, retry_execution]
  · simp [queueExec, retry_execution]

/-- Witness for C4: the sample failed row ("Connection refused by runtime
agent", `retry_count = 0`, `finished_at = 60`) is retryable at time 100
and its reset queues cleanly. -/
theorem C4_retry_semantics_witness :
    retryablePred exFailedRetryable 100 = true ∧
    updatePg (some exFailedRetryable) (retry_execution exFailedRetryable) =
      .ok (retry_execution exFailedRetryable) :=
  ⟨(C4_retry_semantics exFailedRetryable 100 60 0 rfl).1.mpr
      ⟨rfl, by decide, by decide, by decide⟩,
   (C4_retry_semantics exFailedRetryable 100 60 0 rfl).2.2.1⟩

/-! ## C10 — health status update -/

/-- C10: with the failure threshold of 3, a failed probe whose
incremented consecutive-failure count is still below 3 writes
`health_status = HEALTHY` together with the incremented count (never
`UNKNOWN` and never the stored value); `UNHEALTHY` is written exactly
when the probe failed and the incremented count reaches or exceeds 3;
and a successful probe always writes `HEALTHY` with the count reset to
0. -/
theorem C10_health_status_update :
    ∀ (cf now : Nat) (b : Bool),
    (cf + 1 < 3 →
      update_health_status 3 false cf now = (.HEALTHY, cf + 1, now)) ∧
    ((update_health_status 3 b cf now).1 = .UNHEALTHY ↔
      b = false ∧ 3 ≤ cf + 1) ∧
    (update_health_status 3 true cf now = (.HEALTHY, 0, now)) := by
  intro cf now b
  refine ⟨?_, ?_, ?_⟩
  · intro h
    have h3 : ¬ 3 ≤ cf + 1 := by omega
    simp [update_health_status, h3]
  · cases b with
    | true => simp [update_health_status]
    | false =>
      by_cases h3 : 3 ≤ cf + 1
      · simp [update_health_status, h3]
      · simp [update_health_status, h3]
  · simp [update_health_status]

/-- Witness for C10: the second consecutive failure (count 1 → 2) still
writes `HEALTHY`. -/
theorem C10_health_status_update_witness :
    update_health_status 3 false 1 100 = (.HEALTHY, 2, 100) :=
  (C10_health_status_update 1 100 false).1 (by decide)

/-! ## C8 — no suitable node -/

/-- C8 (amended): when the first step (in `order`) is a container step
with a well-formed memory request and `select_node` finds no node with
sufficient capacity, `start_deployment` marks the deployment `FAILED`
with `error_message = "Orchestration error: No suitable infrastructure
node available"` and `completed_at = now`, and no executions are
created. -/
theorem C8_no_capacity_fails_deployment :
    ∀ (nodes : List NodeRec) (d : Deployment) (steps : List StepDef)
      (c : StepDef) (rest : List StepDef) (mem now : Nat),
    sortSteps steps = c :: rest → c.stepType = .container →
    parse_memory c.memoryStr = some mem →
    select_node nodes c.cpu mem 1 = none →
    start_deployment nodes d steps now =
      ({ d with status := .FAILED, startedAt := some now,
                completedAt := some now,
                errorMessage := some
                  "Orchestration error: No suitable infrastructure node available" },
       0) := by
  intro nodes d steps c rest mem now hsort hty hmem hsel
  have hstep : runStep nodes c =
      .error "No suitable infrastructure node available" := by
    simp [runStep, hty, hmem, hsel]
  have hrun : runSteps nodes (sortSteps steps) =
      (0, some "No suitable infrastructure node available") := by
    rw [hsort]
    simp [runSteps, hstep]
  simp only [start_deployment, hrun]
  rfl

/-- C8 counterexample: with no registered nodes, the single-step
deployment is marked `FAILED`, but the stored error message is the
prefixed "Orchestration error: No suitable infrastructure node
available", not the bare message the claim states. -/
theorem C8_message_is_prefixed :
    (start_deployment [] depPending [stepWeb] 100).1.errorMessage ≠
      some "No suitable infrastructure node available" ∧
    (start_deployment [] depPending [stepWeb] 100).1.errorMessage =
      some "Orchestration error: No suitable infrastructure node available" ∧
    (start_deployment [] depPending [stepWeb] 100).1.status =
      .FAILED ∧
    (start_deployment [] depPending [stepWeb] 100).2 = 0 := by
  refine ⟨by decide, rfl, rfl, rfl⟩

/-- Witness for C8: the amended statement applied to the concrete
single-step deployment over an empty fleet. -/
theorem C8_no_capacity_fails_deployment_witness :
    start_deployment [] depPending [stepWeb] 100 =
      ({ depPending with status := .FAILED, startedAt := some 100,
                         completedAt := some 100,
                         errorMessage := some
                           "Orchestration error: No suitable infrastructure node available" },
       0) :=
  C8_no_capacity_fails_deployment [] depPending [stepWeb] stepWeb [] 512 100
    rfl rfl rfl rfl

/-! ## C9 — memory string parsing -/

theorem digitChar_isDigit : ∀ d : Fin 10, (digitChar d).isDigit = true := by
  decide

theorem digitChar_not_ws : ∀ d : Fin 10,
    (digitChar d).isWhitespace = false := by decide

theorem digitChar_toNat : ∀ d : Fin 10,
    (digitChar d).toNat - 48 = d.val := by decide

theorem digitChar_ne_dot : ∀ d : Fin 10, ¬(digitChar d = '.') := by decide

theorem beq_i_digitChar : ∀ d : Fin 10, ('i' == digitChar d) = false := by
  decide

theorem beq_G_digitChar : ∀ d : Fin 10, ('G' == digitChar d) = false := by
  decide

theorem beq_M_digitChar : ∀ d : Fin 10, ('M' == digitChar d) = false := by
  decide

theorem dropWhile_not_ws {l : List Char}
    (h : ∀ c ∈ l, c.isWhitespace = false) :
    l.dropWhile Char.isWhitespace = l := by
  cases l with
  | nil => rfl
  | cons a t => simp [List.dropWhile_cons, h a (by simp)]

theorem stripC_not_ws {l : List Char}
    (h : ∀ c ∈ l, c.isWhitespace = false) : stripC l = l := by
  have h2 : ∀ c ∈ l.reverse, c.isWhitespace = false := fun c hc =>
    h c (List.mem_reverse.mp hc)
  unfold stripC
  rw [dropWhile_not_ws h, dropWhile_not_ws h2, List.reverse_reverse]

theorem digitsVal_map (ds : List (Fin 10)) :
    ∀ acc, digitsVal (ds.map digitChar) acc =
      some (ds.foldl (fun a d => 10 * a + d.val) acc) := by
  induction ds with
  | nil => intro acc; rfl
  | cons d ds ih =>
    intro acc
    simp only [List.map_cons, digitsVal, digitChar_isDigit d, if_true,
      List.foldl_cons, digitChar_toNat d]
    exact ih _

theorem parseNatC_map {ds : List (Fin 10)} (h : ds ≠ []) :
    parseNatC (ds.map digitChar) = some (natOfDigits ds) := by
  have hne : (ds.map digitChar).isEmpty = false := by
    cases ds with
    | nil => exact absurd rfl h
    | cons a l => rfl
  simp only [parseNatC, hne, Bool.false_eq_true, if_false]
  exact digitsVal_map ds 0

theorem splitDot_map (ds : List (Fin 10)) :
    splitDot (ds.map digitChar) = (ds.map digitChar, none) := by
  induction ds with
  | nil => rfl
  | cons d ds ih =>
    simp only [List.map_cons, splitDot, if_neg (digitChar_ne_dot d), ih]

theorem parseFloatC_map {ds : List (Fin 10)} (h : ds ≠ []) :
    parseFloatC (ds.map digitChar) = some (natOfDigits ds, 1) := by
  unfold parseFloatC
  rw [splitDot_map ds]
  show (parseNatC (ds.map digitChar)).map (fun n => (n, 1)) =
    some (natOfDigits ds, 1)
  rw [parseNatC_map h]
  rfl

/-- C9: for every memory string with a whole-number prefix, the
orchestrator's `_parse_memory` returns megabytes as claimed: a `Gi` or
`G` suffix yields the numeric prefix times 1024, an `Mi` or `M` suffix
yields the numeric prefix, and a plain number is taken as MB. -/
theorem C9_parse_memory_units :
    ∀ (ds : List (Fin 10)), ds ≠ [] →
    parse_memory (ds.map digitChar ++ ['G', 'i']) =
      some (natOfDigits ds * 1024) ∧
    parse_memory (ds.map digitChar ++ ['G']) =
      some (natOfDigits ds * 1024) ∧
    parse_memory (ds.map digitChar ++ ['M', 'i']) =
      some (natOfDigits ds) ∧
    parse_memory (ds.map digitChar ++ ['M']) =
      some (natOfDigits ds) ∧
    parse_memory (ds.map digitChar) = some (natOfDigits ds) := by
  intro ds hds
  have hwsS : ∀ c ∈ ds.map digitChar, c.isWhitespace = false := by
    intro c hc
    obtain ⟨d, _, rfl⟩ := List.mem_map.mp hc
    exact digitChar_not_ws d
  have hws : ∀ (suf : List Char), (∀ c ∈ suf, c.isWhitespace = false) →
      ∀ c ∈ ds.map digitChar ++ suf, c.isWhitespace = false := by
    intro suf hsuf c hc
    rcases List.mem_append.mp hc with h | h
    · exact hwsS c h
    · exact hsuf c h
  have hiG : ('i' == 'G') = false := by decide
  have hiM : ('i' == 'M') = false := by decide
  have hGM : ('G' == 'M') = false := by decide
  have hGi : ('G' == 'i') = false := by decide
  have hMG : ('M' == 'G') = false := by decide
  have hMi : ('M' == 'i') = false := by decide
  obtain ⟨dl, tl, hrev⟩ :=
    List.exists_cons_of_ne_nil (l := ds.reverse) (by simpa using hds)
  have hsrev : (ds.map digitChar).reverse = digitChar dl :: tl.map digitChar := by
    rw [← List.map_reverse, hrev, List.map_cons]
  have htake2 : ∀ (a b : Char),
      (ds.map digitChar ++ [a, b]).take
        ((ds.map digitChar ++ [a, b]).length - 2) = ds.map digitChar := by
    intro a b
    have hlen : (ds.map digitChar ++ [a, b]).length - 2 =
        (ds.map digitChar).length := by simp
    rw [hlen, List.take_left]
  have htake1 : ∀ (a : Char),
      (ds.map digitChar ++ [a]).take
        ((ds.map digitChar ++ [a]).length - 1) = ds.map digitChar := by
    intro a
    have hlen : (ds.map digitChar ++ [a]).length - 1 =
        (ds.map digitChar).length := by simp
    rw [hlen, List.take_left]
  refine ⟨?_, ?_, ?_, ?_, ?_⟩
  · -- "<n>Gi"
    have hstr : stripC (ds.map digitChar ++ ['G', 'i']) =
        ds.map digitChar ++ ['G', 'i'] :=
      stripC_not_ws (hws _ (by decide))
    have hsuf : sufMatch (ds.map digitChar ++ ['G', 'i']) ['G', 'i'] = true := by
      simp [sufMatch, prefMatch, List.reverse_append]
    simp only [parse_memory, hstr, hsuf, if_true, htake2,
      parseFloatC_map hds]
    simp
  · -- "<n>G"
    have hstr : stripC (ds.map digitChar ++ ['G']) =
        ds.map digitChar ++ ['G'] :=
      stripC_not_ws (hws _ (by decide))
    have hnGi : sufMatch (ds.map digitChar ++ ['G']) ['G', 'i'] = false := by
      simp [sufMatch, prefMatch, List.reverse_append, hiG]
    have hnMi : sufMatch (ds.map digitChar ++ ['G']) ['M', 'i'] = false := by
      simp [sufMatch, prefMatch, List.reverse_append, hiG]
    have hsuf : sufMatch (ds.map digitChar ++ ['G']) ['G'] = true := by
      simp [sufMatch, prefMatch, List.reverse_append]
    simp only [parse_memory, hstr, hnGi, hnMi, hsuf, Bool.false_eq_true,
      if_false, if_true, htake1, parseFloatC_map hds]
    simp
  · -- "<n>Mi"
    have hstr : stripC (ds.map digitChar ++ ['M', 'i']) =
        ds.map digitChar ++ ['M', 'i'] :=
      stripC_not_ws (hws _ (by decide))
    have hnGi : sufMatch (ds.map digitChar ++ ['M', 'i']) ['G', 'i'] = false := by
      simp [sufMatch, prefMatch, List.reverse_append, hGM]
    have hsuf : sufMatch (ds.map digitChar ++ ['M', 'i']) ['M', 'i'] = true := by
      simp [sufMatch, prefMatch, List.reverse_append]
    simp only [parse_memory, hstr, hnGi, hsuf, Bool.false_eq_true,
      if_false, if_true, htake2, parseFloatC_map hds]
    simp
  · -- "<n>M"
    have hstr : stripC (ds.map digitChar ++ ['M']) =
        ds.map digitChar ++ ['M'] :=
      stripC_not_ws (hws _ (by decide))
    have hnGi : sufMatch (ds.map digitChar ++ ['M']) ['G', 'i'] = false := by
      simp [sufMatch, prefMatch, List.reverse_append, hiM]
    have hnMi : sufMatch (ds.map digitChar ++ ['M']) ['M', 'i'] = false := by
      simp [sufMatch, prefMatch, List.reverse_append, hiM]
    have hnG : sufMatch (ds.map digitChar ++ ['M']) ['G'] = false := by
      simp [sufMatch, prefMatch, List.reverse_append, hGM]
    have hsuf : sufMatch (ds.map digitChar ++ ['M']) ['M'] = true := by
      simp [sufMatch, prefMatch, List.reverse_append]
    simp only [parse_memory, hstr, hnGi, hnMi, hnG, hsuf, Bool.false_eq_true,
      if_false, if_true, htake1, parseFloatC_map hds]
    simp
  · -- plain "<n>"
    have hstr : stripC (ds.map digitChar) = ds.map digitChar :=
      stripC_not_ws hwsS
    have hnGi : sufMatch (ds.map digitChar) ['G', 'i'] = false := by
      simp [sufMatch, prefMatch, hsrev, beq_i_digitChar dl]
    have hnMi : sufMatch (ds.map digitChar) ['M', 'i'] = false := by
      simp [sufMatch, prefMatch, hsrev, beq_i_digitChar dl]
    have hnG : sufMatch (ds.map digitChar) ['G'] = false := by
      simp [sufMatch, prefMatch, hsrev, beq_G_digitChar dl]
    have hnM : sufMatch (ds.map digitChar) ['M'] = false := by
      simp [sufMatch, prefMatch, hsrev, beq_M_digitChar dl]
    simp only [parse_memory, hstr, hnGi, hnMi, hnG, hnM, Bool.false_eq_true,
      if_false]
    exact parseNatC_map hds

/-- Witness for C9: the claim's own examples — "1Gi" = 1024 MB,
"512Mi" = 512 MB, plain "256" = 256 MB. -/
theorem C9_parse_memory_units_witness :
    parse_memory "1Gi".toList = some 1024 ∧
    parse_memory "512Mi".toList = some 512 ∧
    parse_memory "256".toList = some 256 :=
  ⟨(C9_parse_memory_units [1] (by decide)).1,
   (C9_parse_memory_units [5, 1, 2] (by decide)).2.2.1,
   (C9_parse_memory_units [2, 5, 6] (by decide)).2.2.2.2⟩

end ExecEngine
